import Mathlib

/-!
Verification of the screen model of the `notty` terminal emulator.

The development shallowly embeds the data grid (`src/terminal/char_grid/grid.rs`),
the cell model (`src/terminal/char_grid/cell.rs`), the content writers
(`src/terminal/char_grid/data/*.rs`), the high-level `CharGrid` command surface
(`src/terminal/char_grid/mod.rs`) and the `Window` surface
(`src/terminal/window/mod.rs`, `view.rs`).  Machine integers (`u32`, `usize`) are
modelled as `Nat`; where the source uses `saturating_sub` the embedding uses
truncated `Nat` subtraction, which coincides.  Rust panics (`assert!`,
`unimplemented!`, out-of-range indexing) are modelled with `Except Unit`.
The repository's `datatypes` module (Coords, Region, CoordsIter, move_within)
and the files `styles.rs` and `char_grid/cursor.rs` are not present in the
source tree; the definitions taken from the specification instead of the source
are marked `Modelled from the spec:` in their doc comment.
-/

namespace Notty

/-- Embedding of `Coords {x: u32, y: u32}` from the spec's data model (the `datatypes`
module is absent from the source tree). `(0,0)` is the top-left corner. -/
structure Coords where
  x : Nat
  y : Nat
deriving DecidableEq, Repr

/-- Embedding of `Region {left, top, right, bottom}`: half-open rectangle, from the spec's
data model (the `datatypes` module is absent from the source tree). -/
structure Region where
  left : Nat
  top : Nat
  right : Nat
  bottom : Nat
deriving DecidableEq, Repr

def Region.new (l t r b : Nat) : Region := ⟨l, t, r, b⟩

/-- Modelled from the spec: `Region::contains` membership test of the half-open
rectangle. -/
def Region.contains (r : Region) (c : Coords) : Bool :=
  decide (r.left ≤ c.x) && decide (c.x < r.right) &&
  decide (r.top ≤ c.y) && decide (c.y < r.bottom)

def Region.width (r : Region) : Nat := r.right - r.left

def Region.height (r : Region) : Nat := r.bottom - r.top

/-- Modelled from the spec: `move_to_contain(p)` is the smallest translation of
the region that still contains `p` (§3 of the spec; used by
`View::keep_cursor_within`). -/
def Region.move_to_contain (r : Region) (c : Coords) : Region :=
  let xs :=
    if c.x < r.left then (c.x, c.x + r.width)
    else if r.right ≤ c.x then (c.x + 1 - r.width, c.x + 1)
    else (r.left, r.right)
  let ys :=
    if c.y < r.top then (c.y, c.y + r.height)
    else if r.bottom ≤ c.y then (c.y + 1 - r.height, c.y + 1)
    else (r.top, r.bottom)
  ⟨xs.1, ys.1, xs.2, ys.2⟩

/-- Embedding of `Direction` from the spec's data model. -/
inductive Direction where
  | up
  | down
  | left
  | right
deriving DecidableEq, Repr

/-- Iterate a function `n` times (embedding of the source's `for _ in 0..n`
loops). -/
def iterate (f : α → α) : Nat → α → α
  | 0, a => a
  | n + 1, a => iterate f n (f a)

/-- Embedding of `Grid<T>` from `grid.rs`: current width and height, the backing `VecDeque`
(front of the deque = head of the list), and the remaining-growth counters
(`None` = unbounded axis). -/
structure GridT (α : Type) where
  width : Nat
  height : Nat
  data : List α
  rem_x : Option Nat
  rem_y : Option Nat
deriving DecidableEq, Repr

/-- Embedding of `linearize` from `grid.rs`. -/
def linearize (width : Nat) (c : Coords) : Nat := c.y * width + c.x

variable {α : Type}

/-- Embedding of `Grid::constructor` from `grid.rs`: an empty grid whose growth budgets are
the caps. -/
def GridT.constructor (max_x max_y : Option Nat) : GridT α :=
  ⟨0, 0, [], max_x, max_y⟩

def GridT.with_x_cap (max_x : Nat) : GridT α := GridT.constructor (some max_x) none

def GridT.with_y_cap (max_y : Nat) : GridT α := GridT.constructor none (some max_y)

def GridT.with_x_y_caps (max_x max_y : Nat) : GridT α :=
  GridT.constructor (some max_x) (some max_y)

def GridT.with_infinite_scroll : GridT α := GridT.constructor none none

/-- Embedding of `Grid::bounds` from `grid.rs`. -/
def GridT.bounds (g : GridT α) : Option Region :=
  if 0 < g.width && 0 < g.height then some (Region.new 0 0 g.width g.height) else none

/-- Embedding of `Grid::get`, the logical (non-panicking) reading: `None` both when the
coordinate is outside `bounds()` and when the backing deque is shorter than the
linear index (the latter is a panic in Rust; `GridT.getE` distinguishes it). -/
def GridT.get? (g : GridT α) (c : Coords) : Option α :=
  match g.bounds with
  | some b => if b.contains c then g.data[linearize g.width c]? else none
  | none => none

/-- Embedding of `Grid::get` with the panic made explicit: inside `bounds()` the source
indexes `self.data[...]`, which panics when the deque is shorter than
`width·height`. -/
def GridT.getE (g : GridT α) (c : Coords) : Except Unit (Option α) :=
  match g.bounds with
  | some b =>
    if b.contains c then
      match g.data[linearize g.width c]? with
      | some v => .ok (some v)
      | none => .error ()
    else .ok none
  | none => .ok none

/-- In-place update of one cell of the backing deque (`*cell = v` through
`get_mut`; callers guard with a bounds check). -/
def GridT.setAt (g : GridT α) (c : Coords) (v : α) : GridT α :=
  { g with data := g.data.set (linearize g.width c) v }

/-- Embedding of `Grid::guarantee_width` from `grid.rs`, verbatim: note the source computes
`self.width.saturating_sub(width)` (current minus requested). -/
def GridT.guarantee_width (g : GridT α) (width : Nat) : GridT α :=
  let new_rem := g.width - width
  { g with rem_x := g.rem_x.map (fun rem => max rem new_rem) }

/-- Embedding of `Grid::guarantee_height` from `grid.rs`, verbatim (same shape as
`guarantee_width`). -/
def GridT.guarantee_height (g : GridT α) (height : Nat) : GridT α :=
  let new_rem := g.height - height
  { g with rem_y := g.rem_y.map (fun rem => max rem new_rem) }

/-- Modelled from the spec: the optional maximum width of the grid (§4.B "a
container … with optional maximum width and maximum height").  The accessor
`max_width` is called by `data/mod.rs` but absent from the `grid.rs` in the
tree; with remaining-growth counters, the maximum extent is the current extent
plus the remaining budget. -/
def GridT.max_width (g : GridT α) : Option Nat := g.rem_x.map (fun r => g.width + r)

/-- Modelled from the spec: the optional maximum height, counterpart of
`GridT.max_width`. -/
def GridT.max_height (g : GridT α) : Option Nat := g.rem_y.map (fun r => g.height + r)

/-- One iteration of `Grid::shift_up`'s loop body: `pop_back`, `push_front
default`. -/
def shiftUpStep [Inhabited α] (l : List α) : List α := default :: l.dropLast

/-- Embedding of `Grid::shift_up` from `grid.rs`. -/
def GridT.shift_up [Inhabited α] (g : GridT α) (n : Nat) : GridT α :=
  { g with data := iterate shiftUpStep (n * g.width) g.data }

/-- One iteration of `Grid::shift_down`'s loop body: `pop_front`, `push_back
default`. -/
def shiftDownStep [Inhabited α] (l : List α) : List α := l.tail ++ [default]

/-- Embedding of `Grid::shift_down` from `grid.rs`. -/
def GridT.shift_down [Inhabited α] (g : GridT α) (n : Nat) : GridT α :=
  { g with data := iterate shiftDownStep (n * g.width) g.data }

/-- One iteration of `Grid::shift_left`'s loop body: `pop_back`, `push_front
default`, then `data[i*width] = default` for `i in 1..height`. -/
def shiftLeftStep [Inhabited α] (width height : Nat) (l : List α) : List α :=
  (List.range' 1 (height - 1)).foldl (fun acc i => acc.set (i * width) default)
    (default :: l.dropLast)

/-- Embedding of `Grid::shift_left` from `grid.rs`. -/
def GridT.shift_left [Inhabited α] (g : GridT α) (n : Nat) : GridT α :=
  { g with data := iterate (shiftLeftStep g.width g.height) n g.data }

/-- One iteration of `Grid::shift_right`'s loop body: `pop_front`, `push_back
default`, then `data[i*width - 1] = default` for `i in 1..height`. -/
def shiftRightStep [Inhabited α] (width height : Nat) (l : List α) : List α :=
  (List.range' 1 (height - 1)).foldl (fun acc i => acc.set (i * width - 1) default)
    (l.tail ++ [default])

/-- Embedding of `Grid::shift_right` from `grid.rs`. -/
def GridT.shift_right [Inhabited α] (g : GridT α) (n : Nat) : GridT α :=
  { g with data := iterate (shiftRightStep g.width g.height) n g.data }

/-- Embedding of `Grid::extend_up` from `grid.rs`: prepend `rem_or_n` rows of defaults, shift
by the excess when the budget is exceeded, and decrement the budget. -/
def GridT.extend_up [Inhabited α] (g : GridT α) (n : Nat) : GridT α :=
  let rem_or_n := match g.rem_y with | none => n | some y => min y n
  let g1 : GridT α :=
    { g with data := iterate (fun l => default :: l) (rem_or_n * g.width) g.data,
             height := g.height + rem_or_n }
  let g2 :=
    if (match g.rem_y with | none => false | some y => decide (y < n)) then
      g1.shift_up (n - g.rem_y.getD 0)
    else g1
  { g2 with rem_y := g.rem_y.map (fun y => y - n) }

/-- Embedding of `Grid::extend_down` from `grid.rs`. -/
def GridT.extend_down [Inhabited α] (g : GridT α) (n : Nat) : GridT α :=
  let rem_or_n := match g.rem_y with | none => n | some y => min y n
  let g1 : GridT α :=
    { g with data := iterate (fun l => l ++ [default]) (rem_or_n * g.width) g.data,
             height := g.height + rem_or_n }
  let g2 :=
    if (match g.rem_y with | none => false | some y => decide (y < n)) then
      g1.shift_down (n - g.rem_y.getD 0)
    else g1
  { g2 with rem_y := g.rem_y.map (fun y => y - n) }

/-- One iteration of `Grid::extend_left`'s outer loop (`i` is the loop index,
`width`/`height` the grid's extents at loop entry): insert a default before
index `(width+i)*j` for `j in (1..height).rev()`, then `push_front default`. -/
def extendLeftStep [Inhabited α] (width height i : Nat) (l : List α) : List α :=
  default ::
    ((List.range' 1 (height - 1)).reverse.foldl
      (fun acc j => acc.insertIdx ((width + i) * j) default) l)

/-- Embedding of `Grid::extend_left` from `grid.rs`. -/
def GridT.extend_left [Inhabited α] (g : GridT α) (n : Nat) : GridT α :=
  let rem_or_n := match g.rem_x with | none => n | some x => min x n
  let data1 :=
    (List.range rem_or_n).foldl (fun acc i => extendLeftStep g.width g.height i acc) g.data
  let g1 : GridT α := { g with data := data1, width := g.width + rem_or_n }
  let g2 :=
    if (match g.rem_x with | none => false | some x => decide (x < n)) then
      g1.shift_left (n - g.rem_x.getD 0)
    else g1
  { g2 with rem_x := g.rem_x.map (fun x => x - n) }

/-- One iteration of `Grid::extend_right`'s outer loop: the same inserts as
`extend_left`, but ending with `push_back default`. -/
def extendRightStep [Inhabited α] (width height i : Nat) (l : List α) : List α :=
  ((List.range' 1 (height - 1)).reverse.foldl
    (fun acc j => acc.insertIdx ((width + i) * j) default) l) ++ [default]

/-- Embedding of `Grid::extend_right` from `grid.rs`. -/
def GridT.extend_right [Inhabited α] (g : GridT α) (n : Nat) : GridT α :=
  let rem_or_n := match g.rem_x with | none => n | some x => min x n
  let data1 :=
    (List.range rem_or_n).foldl (fun acc i => extendRightStep g.width g.height i acc) g.data
  let g1 : GridT α := { g with data := data1, width := g.width + rem_or_n }
  let g2 :=
    if (match g.rem_x with | none => false | some x => decide (x < n)) then
      g1.shift_right (n - g.rem_x.getD 0)
    else g1
  { g2 with rem_x := g.rem_x.map (fun x => x - n) }

/-- Embedding of `Grid::scroll` from `grid.rs`: extend while the budget in `dir` is not
exhausted, otherwise clear (`self.data.clear()` — only `data`!) when
`n ≥ extent`, otherwise shift. -/
def GridT.scroll [Inhabited α] (g : GridT α) (n : Nat) (direction : Direction) : GridT α :=
  match direction with
  | .up =>
    if g.rem_y ≠ some 0 then g.extend_up n
    else if g.height ≤ n then { g with data := [] }
    else g.shift_up n
  | .down =>
    if g.rem_y ≠ some 0 then g.extend_down n
    else if g.height ≤ n then { g with data := [] }
    else g.shift_down n
  | .left =>
    if g.rem_x ≠ some 0 then g.extend_left n
    else if g.width ≤ n then { g with data := [] }
    else g.shift_left n
  | .right =>
    if g.rem_x ≠ some 0 then g.extend_right n
    else if g.width ≤ n then { g with data := [] }
    else g.shift_right n

/-- Embedding of `Grid::moveover` from `grid.rs`: take the cell at `a` (leaving the default)
and, when `b` is in bounds, store it at `b`. -/
def GridT.moveover [Inhabited α] (g : GridT α) (a b : Coords) : GridT α :=
  match g.get? a with
  | none => g
  | some v =>
    let g1 := g.setAt a default
    match g1.get? b with
    | none => g1
    | some _ => g1.setAt b v

/-- Embedding of `Grid::fill_to_width` from `grid.rs`. -/
def GridT.fill_to_width [Inhabited α] (g : GridT α) (width : Nat) : GridT α :=
  g.extend_right (width - g.width)

/-- Embedding of `Grid::fill_to_height` from `grid.rs`. -/
def GridT.fill_to_height [Inhabited α] (g : GridT α) (height : Nat) : GridT α :=
  g.extend_down (height - g.height)

/-- Embedding of `Grid::write_at` from `grid.rs`: grow so the coordinate is covered, then
overwrite the cell. -/
def GridT.write_at [Inhabited α] (g : GridT α) (c : Coords) (v : α) : GridT α :=
  let g1 := (g.fill_to_width (c.x + 1)).fill_to_height (c.y + 1)
  { g1 with data := g1.data.set (linearize g1.width c) v }

/-- Modelled from the spec: `fill_to(c)` grows right and/or down so that `c`
becomes in-bounds (§4.B); it is called by `data/mod.rs` but absent from the
`grid.rs` in the tree.  It composes the source's `fill_to_width` and
`fill_to_height` exactly as `write_at` does. -/
def GridT.fill_to [Inhabited α] (g : GridT α) (c : Coords) : GridT α :=
  (g.fill_to_width (c.x + 1)).fill_to_height (c.y + 1)

/-- Modelled from the spec: `Styles` is a flat struct of nullable decoration
fields (fg, bg, bold, underline, …) whose zero value is all-unset
(`styles.rs` is absent from the source tree; three representative fields). -/
structure Styles where
  fg : Option Nat
  bg : Option Nat
  bold : Option Bool
deriving DecidableEq, Repr

/-- Embedding of `Styles::new`, the zero value. -/
def Styles.new : Styles := ⟨none, none, none⟩

/-- Modelled from the spec: `UseStyles` is the tagged variant
\x7bDefault, Custom(Styles)\x7d (`styles.rs` absent from the tree). -/
inductive UseStyles where
  | Default
  | Custom (s : Styles)
deriving DecidableEq, Repr

/-- Modelled from the spec: `DEFAULT_STYLES`, the "inherit default" value of
`UseStyles` (used as the styles of `EMPTY_CELL`). -/
def DEFAULT_STYLES : UseStyles := .Default

/-- Embedding of `MediaPosition` (external datatype; only the variant the tests use). -/
inductive MediaPosition where
  | fill
deriving DecidableEq, Repr

/-- Embedding of `ImageData` from `cell.rs`: the image bytes plus the anchor coordinate
(byte sharing through `Arc` is irrelevant to the claims and is modelled by
value). -/
structure ImageData where
  data : List Nat
  coords : Coords
deriving DecidableEq, Repr

/-- Embedding of `CellData` from `cell.rs` (a MIME type is modelled as its string). -/
inductive CellData where
  | empty
  | char (c : Char)
  | grapheme (s : String)
  | extensionOf (a : Coords)
  | image (data : ImageData) (mime : String) (pos : MediaPosition) (width height : Nat)
deriving DecidableEq, Repr

/-- Embedding of `CharCell` from `cell.rs`. -/
structure CharCell where
  styles : UseStyles
  content : CellData
deriving DecidableEq, Repr

/-- Embedding of `EMPTY_CELL` from `cell.rs`. -/
def EMPTY_CELL : CharCell := ⟨DEFAULT_STYLES, .empty⟩

/-- Embedding of `impl Default for CharCell` from `cell.rs`: content `Empty`, styles
`Custom(Styles::new())` (note: not `DEFAULT_STYLES`). -/
instance : Inhabited CharCell := ⟨⟨UseStyles.Custom Styles.new, .empty⟩⟩

/-- Embedding of `CharCell::character` (constructor used by `char_grid/mod.rs`; modelled
from its call sites — it builds a `Char` cell with the given styles). -/
def CharCell.character (c : Char) (st : UseStyles) : CharCell := ⟨st, .char c⟩

/-- Embedding of `CharCell::extension` (constructor used by `char_grid/mod.rs`; modelled
from its call sites — it builds an `Extension` back-reference cell). -/
def CharCell.extensionCell (a : Coords) (st : UseStyles) : CharCell := ⟨st, .extensionOf a⟩

/-- The content of the grid cell at `c`, when present. -/
def contentAt (g : GridT CharCell) (c : Coords) : Option CellData :=
  (g.get? c).map CharCell.content

/-- Content legal for the anchor of an `Extension` back-reference:
`Char`, `Grapheme` or `Image` (spec §3, invariant 1). -/
def CellData.isAnchorContent : CellData → Bool
  | .char _ => true
  | .grapheme _ => true
  | .image .. => true
  | _ => false

/-- Invariant 1 of the spec (§3, §8): every `Extension(a)` cell has the cell at
`a` present with content `Char`, `Grapheme` or `Image`. -/
def ExtensionInvariant (g : GridT CharCell) : Prop :=
  ∀ c a, contentAt g c = some (.extensionOf a) →
    ∃ d, contentAt g a = some d ∧ d.isAnchorContent = true

/-- Executable check of `ExtensionInvariant` over the grid's populated
bounds. -/
def extensionInvariantHolds (g : GridT CharCell) : Bool :=
  (List.range g.height).all fun y =>
    (List.range g.width).all fun x =>
      match contentAt g ⟨x, y⟩ with
      | some (.extensionOf a) =>
        match contentAt g a with
        | some d => d.isAnchorContent
        | none => false
      | _ => true

/-- Embedding of `region_at` from `data/mod.rs`. -/
def region_at (c : Coords) (width height : Nat) : Region :=
  Region.new c.x c.y (c.x + width) (c.y + height)

/-- Modelled from the spec: `CoordsIter::from(region)` yields the region's
coordinates row-major (§4.J; the `datatypes` module is absent from the tree;
the order matches the iterator test in `writer.rs`). -/
def coordsOfRegion (r : Region) : List Coords :=
  (List.range' r.top (r.bottom - r.top)).flatMap
    (fun y => (List.range' r.left (r.right - r.left)).map (fun x => ⟨x, y⟩))

/-- Embedding of `WritableCell::write` for `CharCell` (`data/mod.rs`): replace content and
styles. -/
def writeCellAt (g : GridT CharCell) (c : Coords) (d : CellData) (st : UseStyles) :
    GridT CharCell :=
  let g1 := g.fill_to c
  match g1.get? c with
  | some _ => g1.setAt c ⟨st, d⟩
  | none => g1

/-- Embedding of `best_fit_for_region` from `data/mod.rs`, verbatim: note that the source
computes **both** offsets from `max_width()` (the closure parameter of the
vertical offset is named `height` but is applied to `self.max_width()`).
`saturating_sub` is `Nat` subtraction; the final `region.left - x_offset` is a
plain `u32` subtraction in the source (underflow panics in debug builds) and is
truncated here — all claims evaluate it where it does not underflow. -/
def GridT.best_fit_for_region (g : GridT α) (region : Region) : Coords :=
  let x_offset := match g.max_width with | none => 0 | some width => region.right - width
  let y_offset := match g.max_width with | none => 0 | some height => region.bottom - height
  ⟨region.left - x_offset, region.top - y_offset⟩

/-- The claim's reading of `best_fit_for_region` (spec §4.C): the vertical
offset comes from the **height** cap.  Stated from the spec's words, for
comparison with the source definition above. -/
def bestFitForRegionSpec (g : GridT α) (region : Region) : Coords :=
  let x_offset := match g.max_width with | none => 0 | some width => region.right - width
  let y_offset := match g.max_height with | none => 0 | some height => region.bottom - height
  ⟨region.left - x_offset, region.top - y_offset⟩

/-- Embedding of `coords_before` from `data/mod.rs`. -/
def coords_before (c : Coords) (width : Nat) : Coords :=
  if c.x = 0 then (if c.y = 0 then c else ⟨width - 1, c.y - 1⟩) else ⟨c.x - 1, c.y⟩

/-- The two cell predicates of the `WritableCell` trait (`data/mod.rs`) that
`cell_to_extend` consumes. -/
class WCell (α : Type) where
  is_extendable : α → Bool
  is_extension_of : α → Option Coords

/-- Embedding of `impl WritableCell for CharCell` from `data/mod.rs`: `Char` and `Grapheme`
are extendable. -/
instance : WCell CharCell where
  is_extendable cell :=
    match cell.content with
    | .char _ => true
    | .grapheme _ => true
    | _ => false
  is_extension_of cell :=
    match cell.content with
    | .extensionOf a => some a
    | _ => none

/-- Embedding of `cell_to_extend` from `data/mod.rs`.  The source recurses on the
back-reference without a termination measure (a cyclic chain would not
terminate); the embedding adds explicit fuel, ample for every acyclic chain of
length below the fuel. -/
def cell_to_extend [WCell α] (g : GridT α) : Nat → Coords → Option Coords
  | 0, _ => none
  | fuel + 1, c =>
    match g.get? c with
    | some cell =>
      if WCell.is_extendable cell then some c
      else
        match WCell.is_extension_of cell with
        | some a => cell_to_extend g fuel a
        | none => none
    | none => none

/-- Embedding of `cell_to_extend` invoked with the default fuel `width·height + 1` (enough
for any acyclic chain inside the grid). -/
def cellToExtendFrom [WCell α] (g : GridT α) (c : Coords) : Option Coords :=
  cell_to_extend g (g.width * g.height + 1) c

/-- Embedding of `find_cell_to_extend` from `data/mod.rs`: step back one cell
(`coords_before`) and run `cell_to_extend` there. -/
def find_cell_to_extend [WCell α] (g : GridT α) (c : Coords) : Option Coords :=
  cellToExtendFrom g (coords_before c g.width)

/-- Embedding of `WideChar::write` from `data/character.rs`: re-anchor with
`best_fit_for_region`, write the `Char` at the anchor, write `Extension(anchor)`
at the `w−1` cells to its right, return `(anchor.x + w − 1, anchor.y)`. -/
def WideChar.write (ch : Char) (w : Nat) (c : Coords) (st : UseStyles)
    (g : GridT CharCell) : GridT CharCell × Coords :=
  let anchor := g.best_fit_for_region (region_at c w 1)
  let g1 := writeCellAt g anchor (.char ch) st
  let g2 :=
    (List.range' 1 (w - 1)).foldl
      (fun acc i => writeCellAt acc ⟨anchor.x + i, anchor.y⟩ (.extensionOf anchor) st) g1
  (g2, ⟨anchor.x + w - 1, anchor.y⟩)

/-- The payload of the image writer (`data/image.rs`): `RefCell<Option<…>>`
data (taken on first use), media position and declared size. -/
structure ImagePayload where
  data : Option (List Nat × String)
  pos : MediaPosition
  width : Nat
  height : Nat

/-- Embedding of `Image::write` from `data/image.rs`: when the payload is present, re-anchor
with `best_fit_for_region`, write the `Image` cell at the anchor, fill the rest
of the rectangle with `Extension(anchor)` — and then hit
`unimplemented!() // return proper coords`.  The panic is modelled as
`Except.error ()` in the second component; the first component is the grid as
mutated before the panic. -/
def Image.write (img : ImagePayload) (c : Coords) (st : UseStyles)
    (g : GridT CharCell) : GridT CharCell × Except Unit Coords :=
  match img.data with
  | some dm =>
    let anchor := g.best_fit_for_region (region_at c img.width img.height)
    let g1 := writeCellAt g anchor
      (.image ⟨dm.1, anchor⟩ dm.2 img.pos img.width img.height) st
    let g2 :=
      ((coordsOfRegion (region_at anchor img.width img.height)).drop 1).foldl
        (fun acc ec => writeCellAt acc ec (.extensionOf anchor) st) g1
    (g2, .error ())
  | none => (g, .ok c)

/-- Modelled from the spec: `move_within(coords, To(Right, n, wrap), bounds)`
(the `datatypes` module is absent from the tree).  Without wrap the movement
stops at the right edge of the bounds (so that the caller's
`if next_coords == coords break` loop in `char_grid/mod.rs` terminates there);
with wrap it continues at the left edge of the next row ("wrap honored",
spec §4.H). -/
def moveWithinRight (c : Coords) (n : Nat) (wrap : Bool) (b : Region) : Coords :=
  if c.x + n < b.right then ⟨c.x + n, c.y⟩
  else if wrap then ⟨b.left, c.y + 1⟩
  else ⟨b.right - 1, c.y⟩

/-- Modelled from the spec: `move_out_of_extension` for a rightward movement
(§4.H): step one cell at a time while the cell is `Extension(_)`, terminating
at the first non-extension cell or when stepping would leave the grid.  Fuel
makes the walk structurally recursive; callers pass `width + 1`. -/
def moveOutOfExtensionRight (g : GridT CharCell) : Nat → Coords → Coords
  | 0, c => c
  | fuel + 1, c =>
    match g.get? c with
    | some cell =>
      match cell.content with
      | .extensionOf _ =>
        if c.x + 1 < g.width then moveOutOfExtensionRight g fuel ⟨c.x + 1, c.y⟩ else c
      | _ => c
    | none => c

/-- The old `Window` of `char_grid/window.rs` (the viewport record the
`CharGrid` owns): anchor point and size; `bounds()` is the moveable region. -/
structure OldWindow where
  point : Coords
  width : Nat
  height : Nat

/-- Embedding of `Window::bounds` from `char_grid/window.rs` (Moveable variant). -/
def OldWindow.bounds (w : OldWindow) : Region :=
  Region.new w.point.x w.point.y (w.point.x + w.width) (w.point.y + w.height)

/-- The `CharGrid` of `char_grid/mod.rs`: grid, cursor coordinates, the
cursor's text style, and the old window (tooltips omitted — no claim touches
them). -/
structure CharGridS where
  grid : GridT CharCell
  cursor : Coords
  textStyle : UseStyles
  window : OldWindow

/-- Embedding of `CharGrid::new` from `char_grid/mod.rs`: grid caps per
`(retain_offscreen_state, SCROLLBACK)`, cursor at the origin, window anchored
at the origin.  `scrollback` is the value of the global `SCROLLBACK: isize`. -/
def CharGridS.new (width height : Nat) (retain : Bool) (scrollback : Int) : CharGridS :=
  let grid : GridT CharCell :=
    if retain = false then GridT.with_x_y_caps width height
    else if 0 < scrollback then GridT.with_y_cap (min scrollback.toNat height)
    else GridT.with_infinite_scroll
  { grid := grid, cursor := ⟨0, 0⟩, textStyle := .Default,
    window := ⟨⟨0, 0⟩, width, height⟩ }

/-- The extension-writing loop of `CharGrid::write`'s `CellData::Char` branch:
`for _ in 1..width { let next = move_within(coords, To(Right,1,false), bounds);
if next == coords break; coords = next; write extension }`. -/
def writeCharExts (bounds : Region) (anchor : Coords) (st : UseStyles) :
    Nat → Coords → GridT CharCell → GridT CharCell
  | 0, _, g => g
  | k + 1, coords, g =>
    let next := moveWithinRight coords 1 false bounds
    if next = coords then g
    else
      writeCharExts bounds anchor st k next
        (g.write_at next (CharCell.extensionCell anchor st))

/-- Embedding of `CharGrid::write` for a `CellData::Char` payload (`char_grid/mod.rs`):
write the `Char` at the cursor, write extensions rightwards within the window
bounds for the remaining `width − 1` columns, then `move_cursor(To(Right, 1,
true))`.  `cwidth` is the character's Unicode cell width (`c.width()`, an
external crate); the cursor move is `move_within` followed by the spec's
`move_out_of_extension` (`char_grid/cursor.rs` is absent from the tree). -/
def CharGridS.writeChar (s : CharGridS) (ch : Char) (cwidth : Nat) : CharGridS :=
  let bounds := s.window.bounds
  let g1 := s.grid.write_at s.cursor (CharCell.character ch s.textStyle)
  let g2 := writeCharExts bounds s.cursor s.textStyle (cwidth - 1) s.cursor g1
  let moved := moveWithinRight s.cursor 1 true bounds
  let cursor1 := moveOutOfExtensionRight g2 (g2.width + 1) moved
  { s with grid := g2, cursor := cursor1 }

/-- Embedding of `CharGrid::scroll` from `char_grid/mod.rs`: delegate to `Grid::scroll`. -/
def CharGridS.scroll (s : CharGridS) (dir : Direction) (n : Nat) : CharGridS :=
  { s with grid := s.grid.scroll n dir }

/-- Embedding of `CharGrid`'s `Index<Coords>` from `char_grid/mod.rs`: the cell, or the
shared `EMPTY_CELL` when `Grid::get` yields nothing. -/
def charGridIndex (g : GridT CharCell) (c : Coords) : CharCell :=
  (g.get? c).getD EMPTY_CELL

/-- Embedding of `View::translate` from `window/view.rs` (Moveable variant): add the
region's top-left and `assert!(region.contains(coords))` — the failed assert is
`Except.error ()`. -/
def viewTranslate (r : Region) (c : Coords) : Except Unit Coords :=
  let t : Coords := ⟨c.x + r.left, c.y + r.top⟩
  if r.contains t then .ok t else .error ()

/-- Embedding of `Window`'s `Index<Coords>` from `window/mod.rs`:
`&self.grid[self.view.translate(coords)]`, over a `CharGrid`-backed grid. -/
def windowIndex (g : GridT CharCell) (view : Region) (c : Coords) : Except Unit CharCell :=
  match viewTranslate view c with
  | .ok t => .ok (charGridIndex g t)
  | .error e => .error e

/-- The new `Window` of `window/mod.rs`: grid, cursor (coordinates and text
style) and the Moveable view region. -/
structure WindowS where
  grid : GridT CharCell
  cursor : Coords
  textStyle : UseStyles
  view : Region

/-- Whether the cell at `c` is an `Extension` back-reference. -/
def isExtensionAt (g : GridT CharCell) (c : Coords) : Bool :=
  match contentAt g c with
  | some (.extensionOf _) => true
  | _ => false

/-- Embedding of `Window::write` from `window/mod.rs` for a wide-char payload: run
`WideChar::write` at the cursor, set the cursor to the returned coordinates,
then `move_cursor(To(Right, 1, true))` — `move_within` over the view bounds,
`move_out_of_extension`, and `view.keep_cursor_within`
(`Region::move_to_contain`). -/
def WindowS.writeWide (s : WindowS) (ch : Char) (w : Nat) : WindowS :=
  let r := WideChar.write ch w s.cursor s.textStyle s.grid
  let s1 : WindowS := { s with grid := r.1, cursor := r.2 }
  let moved := moveWithinRight s1.cursor 1 true s1.view
  let cursor1 := moveOutOfExtensionRight s1.grid (s1.grid.width + 1) moved
  { s1 with cursor := cursor1, view := s1.view.move_to_contain cursor1 }

/-! ### Helper lemmas -/

theorem linearize_inj {w : Nat} {a c : Coords} (ha : a.x < w) (hc : c.x < w)
    (h : linearize w a = linearize w c) : a = c := by
  unfold linearize at h
  have hw : 0 < w := by omega
  have h' : a.x + a.y * w = c.x + c.y * w := by omega
  have hx : a.x = c.x := by
    have := congrArg (· % w) h'
    simpa [Nat.add_mul_mod_self_right, Nat.mod_eq_of_lt ha, Nat.mod_eq_of_lt hc] using this
  have hy : a.y = c.y := by
    have := congrArg (· / w) h'
    simpa [Nat.add_mul_div_right _ _ hw, Nat.div_eq_of_lt ha, Nat.div_eq_of_lt hc] using this
  cases a; cases c; simp_all

theorem GridT.bounds_setAt [Inhabited α] (g : GridT α) (a : Coords) (v : α) :
    (g.setAt a v).bounds = g.bounds := rfl

theorem GridT.contains_of_get?_isSome {g : GridT α} {a : Coords} {b : Region}
    (hb : g.bounds = some b) (h : (g.get? a).isSome = true) : b.contains a = true := by
  simp only [GridT.get?, hb] at h
  by_contra hcon
  simp only [Bool.not_eq_true] at hcon
  simp [hcon] at h

theorem GridT.x_lt_width_of_contains {g : GridT α} {b : Region} {a : Coords}
    (hb : g.bounds = some b) (hca : b.contains a = true) : a.x < g.width := by
  unfold GridT.bounds at hb
  by_cases hwh : (0 < g.width && 0 < g.height) = true
  · rw [if_pos hwh] at hb
    injection hb with hb'
    subst hb'
    unfold Region.contains Region.new at hca
    simp at hca
    omega
  · rw [if_neg hwh] at hb; cases hb

theorem GridT.get?_setAt_self [Inhabited α] (g : GridT α) (a : Coords) (v : α)
    (h : (g.get? a).isSome = true) : (g.setAt a v).get? a = some v := by
  cases hb : g.bounds with
  | none => simp only [GridT.get?, hb] at h; simp at h
  | some b =>
    have hcont : b.contains a = true := GridT.contains_of_get?_isSome hb h
    simp only [GridT.get?, hb] at h
    simp only [hcont, if_true] at h
    have hlt : linearize g.width a < g.data.length := by
      by_contra hge
      rw [List.getElem?_eq_none_iff.mpr (by omega)] at h
      simp at h
    have hb' : (g.setAt a v).bounds = some b := by rw [GridT.bounds_setAt, hb]
    simp only [GridT.get?, hb', hcont, if_true]
    show (g.data.set (linearize g.width a) v)[linearize g.width a]? = some v
    exact List.getElem?_set_eq hlt

theorem GridT.get?_setAt_ne [Inhabited α] (g : GridT α) {a c : Coords} (v : α)
    (ha : (g.get? a).isSome = true) (hne : c ≠ a) :
    (g.setAt a v).get? c = g.get? c := by
  cases hb : g.bounds with
  | none =>
    have hb' : (g.setAt a v).bounds = none := by rw [GridT.bounds_setAt, hb]
    simp only [GridT.get?, hb, hb']
  | some b =>
    have hb' : (g.setAt a v).bounds = some b := by rw [GridT.bounds_setAt, hb]
    have hca : b.contains a = true := GridT.contains_of_get?_isSome hb ha
    simp only [GridT.get?, hb, hb']
    by_cases hcc : b.contains c = true
    · simp only [hcc, if_true]
      have hax : a.x < g.width := GridT.x_lt_width_of_contains hb hca
      have hcx : c.x < g.width := GridT.x_lt_width_of_contains hb hcc
      have hidx : linearize g.width a ≠ linearize g.width c := by
        intro hcontra
        exact hne (linearize_inj hcx hax hcontra.symm)
      show (g.data.set (linearize g.width a) v)[linearize g.width c]? =
        g.data[linearize g.width c]?
      exact List.getElem?_set_ne hidx
    · rw [if_neg hcc, if_neg hcc]

theorem GridT.get?_setAt_none [Inhabited α] (g : GridT α) {a b : Coords} (v : α)
    (h : g.get? b = none) : (g.setAt a v).get? b = none := by
  cases hr : g.bounds with
  | none =>
    have hr' : (g.setAt a v).bounds = none := by rw [GridT.bounds_setAt, hr]
    simp only [GridT.get?, hr']
  | some r =>
    have hr' : (g.setAt a v).bounds = some r := by rw [GridT.bounds_setAt, hr]
    simp only [GridT.get?, hr] at h
    simp only [GridT.get?, hr']
    by_cases hc : r.contains b = true
    · simp only [hc, if_true] at h ⊢
      rw [List.getElem?_eq_none_iff] at h
      show (g.data.set (linearize g.width a) v)[linearize g.width b]? = none
      rw [List.getElem?_eq_none_iff, List.length_set]
      exact h
    · rw [if_neg hc]

theorem extensionInvariantHolds_of_invariant {g : GridT CharCell}
    (h : ExtensionInvariant g) : extensionInvariantHolds g = true := by
  unfold extensionInvariantHolds
  rw [List.all_eq_true]
  intro y _
  rw [List.all_eq_true]
  intro x _
  cases hcon : contentAt g ⟨x, y⟩ with
  | none => rfl
  | some d =>
    cases d with
    | extensionOf a =>
      obtain ⟨d', hd', hb'⟩ := h ⟨x, y⟩ a hcon
      simp only [hd']
      exact hb'
    | empty => rfl
    | char c => rfl
    | grapheme s => rfl
    | image i m p w hh => rfl

theorem GridT.moveover_src_none [Inhabited α] (g : GridT α) (a b : Coords)
    (h : g.get? a = none) : g.moveover a b = g := by
  unfold GridT.moveover
  rw [h]

theorem GridT.moveover_dst_none [Inhabited α] (g : GridT α) (a b : Coords) (v : α)
    (hv : g.get? a = some v) (hb : (g.setAt a default).get? b = none) :
    g.moveover a b = g.setAt a default := by
  unfold GridT.moveover
  rw [hv]
  show (match (g.setAt a default).get? b with
        | none => g.setAt a default
        | some _ => (g.setAt a default).setAt b v) = g.setAt a default
  rw [hb]

theorem GridT.moveover_dst_some [Inhabited α] (g : GridT α) (a b : Coords) (v u : α)
    (hv : g.get? a = some v) (hb : (g.setAt a default).get? b = some u) :
    g.moveover a b = (g.setAt a default).setAt b v := by
  unfold GridT.moveover
  rw [hv]
  show (match (g.setAt a default).get? b with
        | none => g.setAt a default
        | some _ => (g.setAt a default).setAt b v) = (g.setAt a default).setAt b v
  rw [hb]

theorem moveWithinRight_no_wrap {c : Coords} {n : Nat} {wrap : Bool} {b : Region}
    (h : c.x + n < b.right) : moveWithinRight c n wrap b = ⟨c.x + n, c.y⟩ := by
  unfold moveWithinRight
  rw [if_pos h]

theorem moveOutOfExtensionRight_stay {g : GridT CharCell} {c : Coords} {fuel : Nat}
    (h : isExtensionAt g c = false) :
    moveOutOfExtensionRight g (fuel + 1) c = c := by
  unfold moveOutOfExtensionRight
  unfold isExtensionAt contentAt at h
  cases hg : g.get? c with
  | none => rfl
  | some cell =>
    rw [hg] at h
    cases hc : cell.content <;> simp_all

/-! ### Concrete states used by the claims -/

/-- C1: a fresh 10×10 grid with `retain_offscreen_state = false`. -/
def c1Fresh : CharGridS := CharGridS.new 10 10 false 0

/-- C1: after writing one wide character (Unicode cell width 2) and scrolling
one column left — both commands of the claim's alphabet. -/
def c1Final : CharGridS := (c1Fresh.writeChar '世' 2).scroll .left 1

/-- C3: a 2×2-capped grid grown to its caps by one write (its growth budgets
are then exhausted: `rem_x = rem_y = some 0`). -/
def c3Full : GridT Nat := (GridT.with_x_y_caps 2 2 : GridT Nat).write_at ⟨1, 1⟩ 7

/-- C3: the same grid after `scroll(2, Down)` — the `n ≥ extent` clearing
branch. -/
def c3Cleared : GridT Nat := c3Full.scroll 2 .down

/-- C5: an image payload of declared size 2×2 whose data has not yet been
taken. -/
def c5Payload : ImagePayload := ⟨some ([11, 238, 253, 173], "image/jpeg"), .fill, 2, 2⟩

/-- C5: running the image writer at the origin of an unbounded grid. -/
def c5Run : GridT CharCell × Except Unit Coords :=
  Image.write c5Payload ⟨0, 0⟩ DEFAULT_STYLES GridT.with_infinite_scroll

/-- C6: a grid with width capped at 4 and unbounded height. -/
def c6Grid : GridT Nat := GridT.with_x_cap 4

/-- C6: a 1×1 region whose bottom (7) exceeds the *width* cap (4) but not any
height cap (there is none). -/
def c6Region : Region := Region.new 1 6 2 7

/-- C7: the cell type of the `test_writable_grid` tests in `data/tests.rs`:
an extendable cell, an extension back-referencing `(0,0)`, and an empty cell. -/
inductive TCell where
  | extensible
  | extcell
  | empty
deriving DecidableEq, Repr

instance : Inhabited TCell := ⟨.empty⟩

/-- Embedding of `impl WritableCell for Cell` from the `test_writable_grid` module of
`data/tests.rs`. -/
instance : WCell TCell where
  is_extendable c := match c with | .extensible => true | _ => false
  is_extension_of c := match c with | .extcell => some ⟨0, 0⟩ | _ => none

/-- C7: the row `[Extensible, Extension→(0,0), Empty]` of the claim (built in
`data/tests.rs` by three `writable` calls on an unbounded grid, yielding a 3×1
grid). -/
def c7Grid : GridT TCell := ⟨3, 1, [.extensible, .extcell, .empty], none, none⟩

/-- C8: a grid whose width has reached its cap 3 (so `rem_x = some 0`),
obtained from `with_x_y_caps(3, 1)` by one `write_at`. -/
def c8Grid : GridT Nat := (GridT.with_x_y_caps 3 1 : GridT Nat).write_at ⟨2, 0⟩ 1

/-- C9: a window over an unbounded grid whose view is 2 columns wide, with the
cursor at the origin — writing a width-2 character lands exactly against the
view's right edge. -/
def c9Window : WindowS := ⟨GridT.with_infinite_scroll, ⟨0, 0⟩, .Default, Region.new 0 0 2 1⟩

/-- The anchor the wide-char writer chooses (`best_fit_for_region` of the w×1
rectangle at the cursor). -/
def wideAnchor (g : GridT CharCell) (c : Coords) (w : Nat) : Coords :=
  g.best_fit_for_region (region_at c w 1)

/-- C10: a 1×1 grid holding the single (non-default) value 5. -/
def c10Grid : GridT Nat := ⟨1, 1, [5], none, none⟩

/-! ### The claims -/

/-- Claim C1  (code_bug evaluation).  The claim: in every state reachable from a
fresh grid by the high-level commands, every `Extension(a)` cell has the cell
at `a` present with content `Char`, `Grapheme` or `Image`.  The code violates
it: from a fresh 10×10 grid, writing one wide character and then
`scroll(1, Left)` (which prepends a default column without recomputing the
stored back-references) leaves `Extension((0,0))` at `(2,0)` while `(0,0)` is
an `Empty` default cell.  (`extensionInvariantHolds` is the executable check of
`ExtensionInvariant`; `extensionInvariantHolds_of_invariant` shows a `false`
outcome refutes the invariant itself.) -/
theorem c1_extension_invariant_violated :
    contentAt c1Final.grid ⟨2, 0⟩ = some (.extensionOf ⟨0, 0⟩) ∧
    contentAt c1Final.grid ⟨0, 0⟩ = some CellData.empty ∧
    extensionInvariantHolds c1Final.grid = false := by
  refine ⟨by decide, by decide, by decide⟩

/-- Claim C2  (counterexample).  The claim: a read whose translated coordinate is
outside the grid's populated bounds returns the shared `EMPTY_CELL`, and
out-of-bounds reads never fail or abort.  At local coordinate `(10,0)` over a
view anchored at the origin with width 10, the translated coordinate `(10,0)`
is outside the (empty) grid's populated bounds, yet the read hits the
`assert!(region.contains(coords))` in `View::translate` instead of returning
`EMPTY_CELL`. -/
theorem c2_window_index_aborts :
    windowIndex (GridT.with_x_y_caps 10 10) (Region.new 0 0 10 10) ⟨10, 0⟩ =
      Except.error () := rfl

/-- Claim C2 amended.  A read whose *translated* coordinate stays inside the
view's region but falls outside the grid's populated bounds does return the
shared `EMPTY_CELL`; only translations that leave the view's region abort. -/
theorem c2_amended_empty_cell_inside_view (g : GridT CharCell) (view : Region) (c : Coords)
    (h1 : view.contains ⟨c.x + view.left, c.y + view.top⟩ = true)
    (h2 : g.get? ⟨c.x + view.left, c.y + view.top⟩ = none) :
    windowIndex g view c = Except.ok EMPTY_CELL := by
  unfold windowIndex viewTranslate
  simp only [h1, if_true]
  unfold charGridIndex
  rw [h2]
  rfl

/-- Claim C2 amended, witness: local `(5,5)` over a 10×10 view on a fresh
(unpopulated) grid reads as `EMPTY_CELL`. -/
theorem c2_amended_witness :
    windowIndex (GridT.with_x_y_caps 10 10) (Region.new 0 0 10 10) ⟨5, 5⟩ =
      Except.ok EMPTY_CELL :=
  c2_amended_empty_cell_inside_view (GridT.with_x_y_caps 10 10) (Region.new 0 0 10 10)
    ⟨5, 5⟩ (by decide) (by decide)

/-- Claim C3  (code_bug evaluation).  The claim: with the growth budget exhausted
and `n ≥ extent`, `scroll(n, dir)` clears the whole grid, after which every
in-bounds coordinate reads as a default cell.  The code only runs
`self.data.clear()`, leaving `width`/`height` (and so `bounds()`) untouched:
the grid still reports 2×2 bounds, and the in-bounds read `get((0,0))` indexes
the now-empty deque — a panic, not a default cell. -/
theorem c3_scroll_clear_leaves_stale_bounds :
    c3Full.rem_y = some 0 ∧ c3Full.height = 2 ∧
    c3Cleared.bounds = some (Region.new 0 0 2 2) ∧ c3Cleared.data = [] ∧
    c3Cleared.getE ⟨0, 0⟩ = Except.error () :=
  ⟨rfl, rfl, rfl, rfl, rfl⟩

/-- Claim C4  (counterexample).  The claim: with `retain_offscreen_state = true`
and `SCROLLBACK = 5 > 0`, the height cap is `min(5, height)` *and the width
remains capped*.  The code builds the grid with `Grid::with_y_cap`, whose
x-budget is `None`: the width is unbounded. -/
theorem c4_width_not_capped :
    ¬ ((CharGridS.new 10 10 true 5).grid.rem_x.isSome = true) := by decide

/-- Claim C4 amended.  `new(width, height, settings)` yields: with
`retain_offscreen_state = false`, budgets `width` and `height` in both axes;
with retention and positive scrollback `n`, an *unbounded width* and height
budget `min(n, height)`; with retention and non-positive scrollback (zero or
negative), a grid unbounded in both axes. -/
theorem c4_amended_caps (width height : Nat) (n : Int) :
    ((CharGridS.new width height false n).grid.rem_x = some width ∧
     (CharGridS.new width height false n).grid.rem_y = some height) ∧
    (0 < n → (CharGridS.new width height true n).grid.rem_x = none ∧
     (CharGridS.new width height true n).grid.rem_y = some (min n.toNat height)) ∧
    (n ≤ 0 → (CharGridS.new width height true n).grid.rem_x = none ∧
     (CharGridS.new width height true n).grid.rem_y = none) := by
  refine ⟨⟨rfl, rfl⟩, fun hn => ?_, fun hn => ?_⟩
  · unfold CharGridS.new
    simp only [Bool.true_eq_false, if_false, hn, if_true, reduceIte]
    exact ⟨rfl, rfl⟩
  · unfold CharGridS.new
    have hnn : ¬ (0 : Int) < n := by omega
    simp only [Bool.true_eq_false, if_false, hnn, reduceIte]
    exact ⟨rfl, rfl⟩

/-- Claim C4 amended, witness: at `width = height = 10`, positive scrollback 5
gives budgets `(none, some 5)`; scrollback −1 gives `(none, none)`. -/
theorem c4_amended_witness :
    ((CharGridS.new 10 10 true 5).grid.rem_x = none ∧
     (CharGridS.new 10 10 true 5).grid.rem_y = some (min (Int.toNat 5) 10)) ∧
    ((CharGridS.new 10 10 true (-1)).grid.rem_x = none ∧
     (CharGridS.new 10 10 true (-1)).grid.rem_y = none) :=
  ⟨(c4_amended_caps 10 10 5).2.1 (by decide), (c4_amended_caps 10 10 (-1)).2.2 (by decide)⟩

/-- Claim C5  (code_bug evaluation).  The claim: the image writer places the
`Image` cell at the best-fit anchor, fills the rest of the rectangle with
`Extension(anchor)`, and returns normally with the anchor plus `(w−1, 0)`.
The code does place the image and the extensions — and then reaches
`unimplemented!() // return proper coords`: it panics instead of returning
(the repo's own `test_image` expects a normal return). -/
theorem c5_image_writer_panics :
    c5Run.2 = Except.error () ∧
    contentAt c5Run.1 ⟨1, 1⟩ = some (.extensionOf ⟨0, 0⟩) ∧
    (contentAt c5Run.1 ⟨0, 0⟩).map CellData.isAnchorContent = some true :=
  ⟨rfl, by decide, by decide⟩

/-- Claim C6  (code_bug evaluation).  The claim: `best_fit_for_region` shifts the
anchor up by `max(0, r.bottom − maximum height)` when the height is capped and
leaves the y coordinate unchanged when the height is unbounded.  The source
computes the vertical offset from `max_width()` (its closure parameter is even
named `height`): on a grid with width cap 4 and *no* height cap, the region
`(1,6)–(2,7)` is shifted up by `7 − 4 = 3` to `(1,3)`, where the claim demands
the identity `(1,6)` (as the spec-worded `bestFitForRegionSpec` computes). -/
theorem c6_best_fit_uses_width_cap_for_y :
    c6Grid.max_height = none ∧
    c6Grid.best_fit_for_region c6Region = ⟨1, 3⟩ ∧
    bestFitForRegionSpec c6Grid c6Region = ⟨1, 6⟩ := by
  refine ⟨rfl, by decide, by decide⟩

/-- Claim C7  (counterexample).  The claim says `find_cell_to_extend` returns
`None` when invoked from `(2,0)`; but `find_cell_to_extend` first steps back
one cell (`coords_before`), lands on the `Extension` at `(1,0)`, hops its
back-reference and returns `Some((0,0))`. -/
theorem c7_find_from_two_not_none : ¬ (find_cell_to_extend c7Grid ⟨2, 0⟩ = none) := by decide

/-- Claim C7 amended.  The claimed results hold for `cell_to_extend`, the helper
invoked *at* the queried coordinate (exactly what the repo's
`test_cell_to_extend` checks): `Some((0,0))` from `(0,0)` and `(1,0)`, `None`
from `(2,0)` and `(3,0)`.  `find_cell_to_extend`, which first steps back one
cell, returns `Some((0,0))` from `(0,0)`, `(1,0)` *and* `(2,0)`, and `None`
from `(3,0)`. -/
theorem c7_amended_cell_to_extend :
    cellToExtendFrom c7Grid ⟨0, 0⟩ = some ⟨0, 0⟩ ∧
    cellToExtendFrom c7Grid ⟨1, 0⟩ = some ⟨0, 0⟩ ∧
    cellToExtendFrom c7Grid ⟨2, 0⟩ = none ∧
    cellToExtendFrom c7Grid ⟨3, 0⟩ = none ∧
    find_cell_to_extend c7Grid ⟨0, 0⟩ = some ⟨0, 0⟩ ∧
    find_cell_to_extend c7Grid ⟨1, 0⟩ = some ⟨0, 0⟩ ∧
    find_cell_to_extend c7Grid ⟨2, 0⟩ = some ⟨0, 0⟩ ∧
    find_cell_to_extend c7Grid ⟨3, 0⟩ = none := by
  refine ⟨by decide, by decide, by decide, by decide, by decide, by decide, by decide, by decide⟩

/-- Claim C8  (code_bug evaluation).  The claim: `guarantee_width` is monotone —
`guarantee_width(w1)` then `guarantee_width(w2 < w1)` leaves the maximum at the
value from `guarantee_width(w1)` alone.  The source computes the new budget as
`self.width.saturating_sub(width)` (current minus requested, reversed): on a
width-3 grid with exhausted budget, `guarantee_width(3)` keeps the maximum at
3, but the *smaller* request `guarantee_width(1)` then raises it to 5; and
`guarantee_width(5)` cannot raise the maximum to 5, contradicting the
function's own comment ("guarantee that this grid can grow to the given
width"). -/
theorem c8_guarantee_width_reversed :
    (c8Grid.guarantee_width 3).max_width = some 3 ∧
    ((c8Grid.guarantee_width 3).guarantee_width 1).max_width = some 5 ∧
    (c8Grid.guarantee_width 5).max_width = some 3 :=
  ⟨rfl, rfl, rfl⟩

/-- Claim C9  (counterexample).  The claim: after any wide-char write the cursor's
x equals `anchor.x + w`.  With the anchor flush against the view's right edge
(view 2 columns wide, `w = 2`), the post-write `To(Right, 1, wrap)` movement
wraps to the next row: the cursor's x is 0, not `anchor.x + 2 = 2`. -/
theorem c9_cursor_wraps_at_edge :
    ¬ ((c9Window.writeWide '世' 2).cursor.x =
       (wideAnchor c9Window.grid c9Window.cursor 2).x + 2) := by decide

/-- Claim C9 amended.  The writer always returns `(anchor.x + w − 1, anchor.y)`;
and whenever the column after the written character is still strictly inside
the view's right bound and does not hold an `Extension` cell, the cursor ends
at x = `anchor.x + w`. -/
theorem c9_amended_cursor_after_wide (s : WindowS) (ch : Char) (w : Nat) (hw : 1 ≤ w)
    (hedge : (wideAnchor s.grid s.cursor w).x + w < s.view.right)
    (hext : isExtensionAt (WideChar.write ch w s.cursor s.textStyle s.grid).1
      ⟨(wideAnchor s.grid s.cursor w).x + w, (wideAnchor s.grid s.cursor w).y⟩ = false) :
    (WideChar.write ch w s.cursor s.textStyle s.grid).2 =
      ⟨(wideAnchor s.grid s.cursor w).x + w - 1, (wideAnchor s.grid s.cursor w).y⟩ ∧
    (s.writeWide ch w).cursor =
      ⟨(wideAnchor s.grid s.cursor w).x + w, (wideAnchor s.grid s.cursor w).y⟩ := by
  constructor
  · rfl
  · show moveOutOfExtensionRight (WideChar.write ch w s.cursor s.textStyle s.grid).1
      ((WideChar.write ch w s.cursor s.textStyle s.grid).1.width + 1)
      (moveWithinRight (WideChar.write ch w s.cursor s.textStyle s.grid).2 1 true s.view) = _
    have hret : (WideChar.write ch w s.cursor s.textStyle s.grid).2 =
        ⟨(wideAnchor s.grid s.cursor w).x + w - 1, (wideAnchor s.grid s.cursor w).y⟩ := rfl
    rw [hret]
    have hx : (wideAnchor s.grid s.cursor w).x + w - 1 + 1 =
        (wideAnchor s.grid s.cursor w).x + w := by omega
    rw [moveWithinRight_no_wrap (by simpa [hx] using hedge)]
    rw [hx]
    exact moveOutOfExtensionRight_stay hext

/-- Claim C9 amended, witness: over a 10-column view on an unbounded grid, the
writer returns `(1,0)` and the cursor ends at `(2,0) = anchor + (w, 0)`. -/
theorem c9_amended_witness :
    (WideChar.write '世' 2 (⟨0, 0⟩ : Coords) .Default GridT.with_infinite_scroll).2 =
      ⟨(wideAnchor GridT.with_infinite_scroll ⟨0, 0⟩ 2).x + 2 - 1,
       (wideAnchor GridT.with_infinite_scroll ⟨0, 0⟩ 2).y⟩ ∧
    ((⟨GridT.with_infinite_scroll, ⟨0, 0⟩, .Default, Region.new 0 0 10 1⟩ :
        WindowS).writeWide '世' 2).cursor =
      ⟨(wideAnchor GridT.with_infinite_scroll ⟨0, 0⟩ 2).x + 2,
       (wideAnchor GridT.with_infinite_scroll ⟨0, 0⟩ 2).y⟩ :=
  c9_amended_cursor_after_wide
    ⟨GridT.with_infinite_scroll, ⟨0, 0⟩, .Default, Region.new 0 0 10 1⟩ '世' 2
    (by decide) (by decide) (by decide)

/-- Claim C10  (counterexample).  The claim: whenever `from` is in bounds,
`moveover(from, to)` resets the cell at `from` to the default.  With
`to = from` the taken value is immediately written back: on a 1×1 grid holding
5, `moveover((0,0), (0,0))` leaves 5, not the default 0. -/
theorem c10_moveover_self_not_default :
    ¬ ((c10Grid.moveover ⟨0, 0⟩ ⟨0, 0⟩).get? ⟨0, 0⟩ = some (default : Nat)) := by decide

/-- Claim C10 amended.  For every grid: an out-of-bounds source leaves the grid
unchanged; an in-bounds source with `to ≠ from` is reset to the default; when
`to` is out of bounds the moved value is discarded and every cell other than
`from` is unchanged; and with `to = from` every cell (including `from`) is
unchanged. -/
theorem c10_amended_moveover [Inhabited α] (g : GridT α) (a b : Coords) :
    (g.get? a = none → g.moveover a b = g) ∧
    ((g.get? a).isSome = true → b ≠ a → (g.moveover a b).get? a = some default) ∧
    ((g.get? a).isSome = true → g.get? b = none →
      ∀ c, c ≠ a → (g.moveover a b).get? c = g.get? c) ∧
    ((g.get? a).isSome = true → b = a →
      ∀ c, (g.moveover a b).get? c = g.get? c) := by
  refine ⟨fun hnone => ?_, fun hsome hne => ?_, fun hsome hbnone c hc => ?_,
    fun hsome hba c => ?_⟩
  · exact GridT.moveover_src_none g a b hnone
  · obtain ⟨v, hv⟩ := Option.isSome_iff_exists.mp hsome
    have hda : ((g.setAt a default).get? a) = some default :=
      GridT.get?_setAt_self g a default hsome
    cases hb2 : (g.setAt a default).get? b with
    | none =>
      rw [GridT.moveover_dst_none g a b v hv hb2]
      exact hda
    | some u =>
      rw [GridT.moveover_dst_some g a b v u hv hb2]
      have hbsome : ((g.setAt a default).get? b).isSome = true := by rw [hb2]; rfl
      rw [GridT.get?_setAt_ne (g.setAt a default) v hbsome (Ne.symm hne)]
      exact hda
  · obtain ⟨v, hv⟩ := Option.isSome_iff_exists.mp hsome
    have hb2 : (g.setAt a default).get? b = none := GridT.get?_setAt_none g default hbnone
    rw [GridT.moveover_dst_none g a b v hv hb2]
    exact GridT.get?_setAt_ne g default hsome hc
  · obtain ⟨v, hv⟩ := Option.isSome_iff_exists.mp hsome
    rw [hba]
    have hda : ((g.setAt a default).get? a) = some default :=
      GridT.get?_setAt_self g a default hsome
    rw [GridT.moveover_dst_some g a a v default hv hda]
    have hsome2 : ((g.setAt a default).get? a).isSome = true := by rw [hda]; rfl
    by_cases hca : c = a
    · rw [hca]
      rw [GridT.get?_setAt_self (g.setAt a default) a v hsome2, hv]
    · rw [GridT.get?_setAt_ne (g.setAt a default) v hsome2 hca,
        GridT.get?_setAt_ne g default hsome hca]

/-- Claim C10 amended, witness: on the 1×1 grid holding 5, moving `(0,0)` onto
the out-of-bounds `(3,3)` resets the source to the default 0, and
`moveover((5,5), (0,0))` (out-of-bounds source) leaves the grid unchanged. -/
theorem c10_amended_witness :
    (c10Grid.moveover ⟨0, 0⟩ ⟨3, 3⟩).get? ⟨0, 0⟩ = some (default : Nat) ∧
    c10Grid.moveover ⟨5, 5⟩ ⟨0, 0⟩ = c10Grid :=
  ⟨(c10_amended_moveover c10Grid ⟨0, 0⟩ ⟨3, 3⟩).2.1 (by decide) (by decide),
   (c10_amended_moveover c10Grid ⟨5, 5⟩ ⟨0, 0⟩).1 (by decide)⟩

end Notty
